import Mathlib

/-!
Shallow embedding of the broadcast pub/sub core of `src/main.go`
(package main of afikrim/go-event-stream-chat).

The Go program keeps a process-wide `Event` value holding a slice of
`Subscriber`s; each subscriber owns an unbuffered `chan []byte`.  We model
the channel heap explicitly: an `EventState` carries, next to the
`Subscribers` slice, a list of `ChanState`s indexed by allocation order,
and each `Subscriber.Channel` is an index into that list (in Go the field
holds the channel reference itself).  A channel is a queue of payloads
plus its closed flag; sending on a closed channel and closing an already
closed channel are Go runtime panics, modelled by `Option.none`.

`time.Now().Unix()` is modelled by passing the current clock reading
(whole seconds, as in Go) to `Subscribe` explicitly.
-/

/-- A byte payload (`[]byte` in the source); bytes modelled as naturals. -/
abbrev Payload := List Nat

/-- The state of one Go channel of payloads: the queue of values sent but
not yet received, and whether `close` has been called on it. -/
structure ChanState where
  buf : List Payload
  closed : Bool
deriving DecidableEq, Repr

/-- `Subscriber` of src/main.go lines 11-15: `ID`, `Closed` and `Channel`.
`Channel` is an index into the channel heap of the `EventState`. -/
structure Subscriber where
  ID : String
  Closed : Bool
  Channel : Nat
deriving DecidableEq, Repr

/-- `Event` of src/main.go lines 17-19 together with the heap of channels
allocated so far (`make(chan []byte)` allocates at the end). -/
structure EventState where
  Subscribers : List Subscriber
  chans : List ChanState
deriving DecidableEq, Repr

/-- The zero `Event` value `&Event{}` created in `main`. -/
def emptyEvent : EventState := { Subscribers := [], chans := [] }

/-- True when channel `ch` exists in the heap and is not closed. -/
def chanOpen (chans : List ChanState) (ch : Nat) : Bool :=
  match chans[ch]? with
  | some c => !c.closed
  | none => false

/-- `ch <- data`: appends `data` to the channel's queue.  Sending on a
closed channel panics in Go (`none`); an out-of-range index cannot arise
from the operations below. -/
def sendChan (ch : Nat) (data : Payload) (chans : List ChanState) :
    Option (List ChanState) :=
  match chans[ch]? with
  | none => none
  | some c =>
    if c.closed then none
    else some (chans.set ch { c with buf := c.buf ++ [data] })

/-- `close(ch)`: marks the channel closed.  Closing an already closed
channel panics in Go (`none`). -/
def closeChan (ch : Nat) (chans : List ChanState) :
    Option (List ChanState) :=
  match chans[ch]? with
  | none => none
  | some c =>
    if c.closed then none
    else some (chans.set ch { c with closed := true })

/-- `func (e *Event) Subscribe() Subscriber` (src/main.go lines 21-28):
builds a subscriber whose id is `fmt.Sprintf("%d", time.Now().Unix())`
— the clock reading `now` formatted in decimal — with a freshly made
channel, appends it to `e.Subscribers` and returns it. -/
def Subscribe (now : Nat) (st : EventState) : Subscriber × EventState :=
  let subscriber : Subscriber :=
    { ID := toString now, Closed := false, Channel := st.chans.length }
  (subscriber,
    { Subscribers := st.Subscribers ++ [subscriber],
      chans := st.chans ++ [{ buf := [], closed := false }] })

/-- The loop of `Unsubscribe` (src/main.go lines 31-39): scan for the
first subscriber whose `ID` matches; `none` when the loop falls through
without a match, otherwise the slice with that entry removed
(`append(e.Subscribers[:i], e.Subscribers[i+1:]...)`) paired with the
channel of the removed entry (closed after removal, then `break`). -/
def unsubscribeLoop (ID : String) :
    List Subscriber → Option (List Subscriber × Nat)
  | [] => none
  | s :: rest =>
    if s.ID = ID then some (rest, s.Channel)
    else (unsubscribeLoop ID rest).map (fun p => (s :: p.1, p.2))

/-- `func (e *Event) Unsubscribe(ID string)` (src/main.go lines 30-40):
removes the first subscriber matching `ID` and closes its channel; when
no subscriber matches, the state is returned unchanged. -/
def Unsubscribe (ID : String) (st : EventState) : Option EventState :=
  match unsubscribeLoop ID st.Subscribers with
  | none => some st
  | some (subs, ch) =>
    (closeChan ch st.chans).map
      (fun cs => { Subscribers := subs, chans := cs })

/-- The loop of `Publish` (src/main.go lines 43-45): send `data` on each
subscriber's channel in slice order; a panic (send on closed channel)
aborts the whole call. -/
def publishLoop (data : Payload) :
    List Subscriber → List ChanState → Option (List ChanState)
  | [], chans => some chans
  | s :: rest, chans =>
    match sendChan s.Channel data chans with
    | none => none
    | some cs => publishLoop data rest cs

/-- `func (e *Event) Publish(data []byte)` (src/main.go lines 42-46). -/
def Publish (data : Payload) (st : EventState) : Option EventState :=
  (publishLoop data st.Subscribers st.chans).map
    (fun cs => { st with chans := cs })

/-- Well-formedness of a registry state: every live subscriber's channel
exists in the heap and is open, and no two live subscribers share a
channel.  Every state reachable through the three operations satisfies
this (theorem `reachable_wf` below). -/
def wf (st : EventState) : Prop :=
  (∀ s ∈ st.Subscribers, chanOpen st.chans s.Channel = true) ∧
  (st.Subscribers.map Subscriber.Channel).Nodup

instance (st : EventState) : Decidable (wf st) := by
  unfold wf; exact instDecidableAnd

/-- The states reachable from the startup state `&Event{}` through the
three registry operations (panicking runs excluded). -/
inductive Reachable : EventState → Prop where
  | init : Reachable emptyEvent
  | subscribe (now : Nat) (st : EventState) :
      Reachable st → Reachable (Subscribe now st).2
  | unsubscribe (ID : String) (st st' : EventState) :
      Reachable st → Unsubscribe ID st = some st' → Reachable st'
  | publish (data : Payload) (st st' : EventState) :
      Reachable st → Publish data st = some st' → Reachable st'

/-- One step observed by the `select` of `receiveChatHandler`'s loop
(src/main.go lines 63-72): either a payload arrives on the subscriber's
channel (`writeOk` records whether the `fmt.Fprintf` to the peer
succeeds — its error is discarded by the handler either way), or the
request context is done (peer disconnected). -/
inductive SessionEvent where
  | deliver (data : Payload) (writeOk : Bool)
  | cancel
deriving DecidableEq, Repr

/-- An operation the streaming session performs, in order: the initial
`Subscribe`, a forwarded write to the transport, or the deferred
`Unsubscribe`. -/
inductive SessionOp where
  | subscribeOp (ID : String)
  | writeOp (data : Payload)
  | unsubscribeOp (ID : String)
deriving DecidableEq, Repr

/-- The `for { select { ... } }` loop of `receiveChatHandler`: each
delivered payload is forwarded (even when the transport write fails,
since its error is ignored), and the loop returns on context
cancellation, at which point the deferred `Unsubscribe` runs.  An event
list that never cancels leaves the goroutine blocked in `select`
forever: the session never exits, modelled by `none`. -/
def streamLoop (ID : String) : List SessionEvent → Option (List SessionOp)
  | [] => none
  | SessionEvent.cancel :: _ => some [SessionOp.unsubscribeOp ID]
  | SessionEvent.deliver d _ :: rest =>
    (streamLoop ID rest).map (fun ops => SessionOp.writeOp d :: ops)

/-- The registry-facing trace of one run of the handler returned by
`receiveChatHandler` (src/main.go lines 48-74): when the ResponseWriter
is no `http.Flusher` the handler errors out before subscribing (empty
trace); otherwise it subscribes, runs the loop on the events the
`select` observes, and the deferred `Unsubscribe` fires on exit. -/
def receiveChatHandlerTrace (flusherOk : Bool) (now : Nat)
    (st : EventState) (events : List SessionEvent) :
    Option (List SessionOp) :=
  if flusherOk then
    (streamLoop ((Subscribe now st).1).ID events).map
      (fun ops => SessionOp.subscribeOp ((Subscribe now st).1).ID :: ops)
  else some []

/-- Whether a session operation is an `Unsubscribe` call (with any id). -/
def isUnsubOp : SessionOp → Bool
  | SessionOp.unsubscribeOp _ => true
  | _ => false

/-- Two `Subscribe` calls within the same clock second (`time.Now().Unix()`
returns 100 both times): the id collision state. -/
def stDup : EventState := (Subscribe 100 (Subscribe 100 emptyEvent).2).2

/-- A single subscription made at clock second 5. -/
def oneSub : EventState := (Subscribe 5 emptyEvent).2

/-- The state after publishing payload `[1]` to `oneSub`. -/
def pubOne : EventState :=
  { Subscribers := [{ ID := "5", Closed := false, Channel := 0 }],
    chans := [{ buf := [[1]], closed := false }] }

theorem chanOpen_iff {chans : List ChanState} {ch : Nat} :
    chanOpen chans ch = true ↔
      ∃ c, chans[ch]? = some c ∧ c.closed = false := by
  unfold chanOpen
  cases hc : chans[ch]? with
  | none => simp
  | some c => simp

theorem sendChan_some_spec {ch : Nat} {d : Payload} {chans cs : List ChanState}
    (h : sendChan ch d chans = some cs) :
    ∃ c, chans[ch]? = some c ∧ c.closed = false ∧
      cs = chans.set ch { c with buf := c.buf ++ [d] } := by
  unfold sendChan at h
  cases hc : chans[ch]? with
  | none => rw [hc] at h; simp at h
  | some c =>
    rw [hc] at h
    dsimp only at h
    by_cases hcl : c.closed = true
    · rw [if_pos hcl] at h; exact absurd h (by simp)
    · rw [if_neg hcl] at h
      exact ⟨c, rfl, by simpa using hcl, (Option.some_inj.mp h).symm⟩

theorem sendChan_of_open (d : Payload) {chans : List ChanState} {ch : Nat}
    (h : chanOpen chans ch = true) :
    ∃ cs, sendChan ch d chans = some cs := by
  obtain ⟨c, hc, hcl⟩ := chanOpen_iff.mp h
  refine ⟨chans.set ch { c with buf := c.buf ++ [d] }, ?_⟩
  unfold sendChan
  rw [hc]
  dsimp only
  rw [if_neg (by simp [hcl])]

theorem sendChan_getElem_same {ch : Nat} {d : Payload} {chans cs : List ChanState}
    (h : sendChan ch d chans = some cs) :
    ∃ c, chans[ch]? = some c ∧ c.closed = false ∧
      cs[ch]? = some { c with buf := c.buf ++ [d] } := by
  obtain ⟨c, hc, hcl, rfl⟩ := sendChan_some_spec h
  obtain ⟨hlt, -⟩ := List.getElem?_eq_some_iff.mp hc
  exact ⟨c, hc, hcl, by simp [List.getElem?_set_self (by simpa using hlt)]⟩

theorem sendChan_getElem_other {ch ch' : Nat} {d : Payload} {chans cs : List ChanState}
    (h : sendChan ch d chans = some cs) (hne : ch' ≠ ch) :
    cs[ch']? = chans[ch']? := by
  obtain ⟨c, hc, hcl, rfl⟩ := sendChan_some_spec h
  exact List.getElem?_set_ne (fun e => hne e.symm)

theorem sendChan_closed_map {ch : Nat} {d : Payload} {chans cs : List ChanState}
    (h : sendChan ch d chans = some cs) (x : Nat) :
    (cs[x]?).map ChanState.closed = (chans[x]?).map ChanState.closed := by
  by_cases hx : x = ch
  · subst hx
    obtain ⟨c, hc, hcl, hsame⟩ := sendChan_getElem_same h
    rw [hc, hsame]
    simp
  · rw [sendChan_getElem_other h hx]

theorem sendChan_chanOpen {ch : Nat} {d : Payload} {chans cs : List ChanState}
    (h : sendChan ch d chans = some cs) (x : Nat) :
    chanOpen cs x = chanOpen chans x := by
  have hm := sendChan_closed_map h x
  unfold chanOpen
  cases hx : chans[x]? with
  | none =>
    rw [hx] at hm
    cases hx' : cs[x]? with
    | none => rfl
    | some c => rw [hx'] at hm; simp at hm
  | some c =>
    rw [hx] at hm
    cases hx' : cs[x]? with
    | none => rw [hx'] at hm; simp at hm
    | some c' =>
      rw [hx'] at hm
      simp only [Option.map_some'] at hm
      dsimp only
      rw [Option.some_inj.mp hm]

theorem sendChan_length {ch : Nat} {d : Payload} {chans cs : List ChanState}
    (h : sendChan ch d chans = some cs) : cs.length = chans.length := by
  obtain ⟨c, hc, hcl, rfl⟩ := sendChan_some_spec h
  simp

theorem closeChan_some_spec {ch : Nat} {chans cs : List ChanState}
    (h : closeChan ch chans = some cs) :
    ∃ c, chans[ch]? = some c ∧ c.closed = false ∧
      cs = chans.set ch { c with closed := true } := by
  unfold closeChan at h
  cases hc : chans[ch]? with
  | none => rw [hc] at h; simp at h
  | some c =>
    rw [hc] at h
    dsimp only at h
    by_cases hcl : c.closed = true
    · rw [if_pos hcl] at h; exact absurd h (by simp)
    · rw [if_neg hcl] at h
      exact ⟨c, rfl, by simpa using hcl, (Option.some_inj.mp h).symm⟩

theorem closeChan_of_open {chans : List ChanState} {ch : Nat}
    (h : chanOpen chans ch = true) :
    ∃ cs, closeChan ch chans = some cs := by
  obtain ⟨c, hc, hcl⟩ := chanOpen_iff.mp h
  refine ⟨chans.set ch { c with closed := true }, ?_⟩
  unfold closeChan
  rw [hc]
  dsimp only
  rw [if_neg (by simp [hcl])]

theorem closeChan_getElem_same {ch : Nat} {chans cs : List ChanState}
    (h : closeChan ch chans = some cs) :
    ∃ c, chans[ch]? = some c ∧ c.closed = false ∧
      cs[ch]? = some { c with closed := true } := by
  obtain ⟨c, hc, hcl, rfl⟩ := closeChan_some_spec h
  obtain ⟨hlt, -⟩ := List.getElem?_eq_some_iff.mp hc
  exact ⟨c, hc, hcl, by simp [List.getElem?_set_self (by simpa using hlt)]⟩

theorem closeChan_getElem_other {ch ch' : Nat} {chans cs : List ChanState}
    (h : closeChan ch chans = some cs) (hne : ch' ≠ ch) :
    cs[ch']? = chans[ch']? := by
  obtain ⟨c, hc, hcl, rfl⟩ := closeChan_some_spec h
  exact List.getElem?_set_ne (fun e => hne e.symm)

theorem publishLoop_frame {d : Payload} {l : List Subscriber}
    {chans cs : List ChanState}
    (h : publishLoop d l chans = some cs) {ch : Nat}
    (hch : ch ∉ l.map Subscriber.Channel) :
    cs[ch]? = chans[ch]? := by
  induction l generalizing chans with
  | nil => unfold publishLoop at h; simpa using (Option.some_inj.mp h) ▸ rfl
  | cons s rest ih =>
    unfold publishLoop at h
    cases hs : sendChan s.Channel d chans with
    | none => rw [hs] at h; simp at h
    | some cs1 =>
      rw [hs] at h
      dsimp only at h
      simp only [List.map_cons, List.mem_cons, not_or] at hch
      rw [ih h hch.2, sendChan_getElem_other hs hch.1]

theorem publishLoop_closed_map {d : Payload} {l : List Subscriber}
    {chans cs : List ChanState}
    (h : publishLoop d l chans = some cs) (x : Nat) :
    (cs[x]?).map ChanState.closed = (chans[x]?).map ChanState.closed := by
  induction l generalizing chans with
  | nil => unfold publishLoop at h; rw [Option.some_inj.mp h]
  | cons s rest ih =>
    unfold publishLoop at h
    cases hs : sendChan s.Channel d chans with
    | none => rw [hs] at h; simp at h
    | some cs1 =>
      rw [hs] at h
      dsimp only at h
      rw [ih h, sendChan_closed_map hs]

theorem publishLoop_chanOpen {d : Payload} {l : List Subscriber}
    {chans cs : List ChanState}
    (h : publishLoop d l chans = some cs) (x : Nat) :
    chanOpen cs x = chanOpen chans x := by
  induction l generalizing chans with
  | nil => unfold publishLoop at h; rw [Option.some_inj.mp h]
  | cons s rest ih =>
    unfold publishLoop at h
    cases hs : sendChan s.Channel d chans with
    | none => rw [hs] at h; simp at h
    | some cs1 =>
      rw [hs] at h
      dsimp only at h
      rw [ih h, sendChan_chanOpen hs]

theorem publishLoop_length {d : Payload} {l : List Subscriber}
    {chans cs : List ChanState}
    (h : publishLoop d l chans = some cs) : cs.length = chans.length := by
  induction l generalizing chans with
  | nil => unfold publishLoop at h; rw [Option.some_inj.mp h]
  | cons s rest ih =>
    unfold publishLoop at h
    cases hs : sendChan s.Channel d chans with
    | none => rw [hs] at h; simp at h
    | some cs1 =>
      rw [hs] at h
      dsimp only at h
      rw [ih h, sendChan_length hs]

theorem publishLoop_of_open (d : Payload) {l : List Subscriber}
    {chans : List ChanState}
    (h : ∀ s ∈ l, chanOpen chans s.Channel = true) :
    ∃ cs, publishLoop d l chans = some cs := by
  induction l generalizing chans with
  | nil => exact ⟨chans, rfl⟩
  | cons s rest ih =>
    obtain ⟨cs1, hs⟩ := sendChan_of_open d (h s (List.mem_cons_self s rest))
    have hrest : ∀ s' ∈ rest, chanOpen cs1 s'.Channel = true := fun s' hs' => by
      rw [sendChan_chanOpen hs]
      exact h s' (List.mem_cons_of_mem s hs')
    obtain ⟨cs, hrec⟩ := ih hrest
    refine ⟨cs, ?_⟩
    unfold publishLoop
    rw [hs]
    exact hrec

theorem publishLoop_fanout {d : Payload} {l : List Subscriber}
    {chans cs : List ChanState}
    (h : publishLoop d l chans = some cs)
    (hnd : (l.map Subscriber.Channel).Nodup) :
    ∀ s ∈ l, ∃ c, chans[s.Channel]? = some c ∧
      cs[s.Channel]? = some { c with buf := c.buf ++ [d] } := by
  induction l generalizing chans with
  | nil => intro s hs; exact absurd hs (List.not_mem_nil s)
  | cons s₁ rest ih =>
    unfold publishLoop at h
    cases hs : sendChan s₁.Channel d chans with
    | none => rw [hs] at h; simp at h
    | some cs1 =>
      rw [hs] at h
      dsimp only at h
      simp only [List.map_cons, List.nodup_cons] at hnd
      intro s hmem
      rcases List.mem_cons.mp hmem with rfl | hmem'
      · obtain ⟨c, hc, hcl, hsame⟩ := sendChan_getElem_same hs
        refine ⟨c, hc, ?_⟩
        rw [publishLoop_frame h hnd.1, hsame]
      · obtain ⟨c, hc1, hcs⟩ := ih h hnd.2 s hmem'
        have hne : s.Channel ≠ s₁.Channel := fun e => by
          exact hnd.1 (e ▸ List.mem_map_of_mem Subscriber.Channel hmem')
        refine ⟨c, ?_, hcs⟩
        rw [← sendChan_getElem_other hs hne]
        exact hc1

theorem unsubscribeLoop_eq_none {ID : String} {l : List Subscriber} :
    unsubscribeLoop ID l = none ↔ ∀ s ∈ l, s.ID ≠ ID := by
  induction l with
  | nil => simp [unsubscribeLoop]
  | cons s rest ih =>
    unfold unsubscribeLoop
    by_cases h : s.ID = ID
    · simp [h]
    · simp [h, ih]

theorem unsubscribeLoop_some_spec {ID : String} {l : List Subscriber}
    {p : List Subscriber × Nat}
    (h : unsubscribeLoop ID l = some p) :
    ∃ l₁ s₀ l₂, l = l₁ ++ s₀ :: l₂ ∧ p = (l₁ ++ l₂, s₀.Channel) ∧
      s₀.ID = ID ∧ ∀ s ∈ l₁, s.ID ≠ ID := by
  induction l generalizing p with
  | nil => simp [unsubscribeLoop] at h
  | cons s rest ih =>
    unfold unsubscribeLoop at h
    by_cases hs : s.ID = ID
    · rw [if_pos hs] at h
      exact ⟨[], s, rest, by simp, (Option.some_inj.mp h).symm, hs, by simp⟩
    · rw [if_neg hs] at h
      cases hr : unsubscribeLoop ID rest with
      | none => rw [hr] at h; simp at h
      | some q =>
        rw [hr] at h
        simp only [Option.map_some'] at h
        obtain ⟨l₁, s₀, l₂, rfl, hq, hid, hl₁⟩ := ih hr
        refine ⟨s :: l₁, s₀, l₂, by simp, ?_, hid, ?_⟩
        · rw [← Option.some_inj.mp h, hq]
          simp
        · intro x hx
          rcases List.mem_cons.mp hx with rfl | hx'
          · exact hs
          · exact hl₁ x hx'

theorem chanOpen_lt {chans : List ChanState} {ch : Nat}
    (h : chanOpen chans ch = true) : ch < chans.length := by
  obtain ⟨c, hc, -⟩ := chanOpen_iff.mp h
  exact (List.getElem?_eq_some_iff.mp hc).1

theorem getElem?_append_length {α : Type} (l : List α) (c : α) :
    (l ++ [c])[l.length]? = some c := by
  rw [List.getElem?_append_right (Nat.le_refl _)]
  simp

theorem chanOpen_append {chans : List ChanState} {ch : Nat} (c : ChanState)
    (h : chanOpen chans ch = true) : chanOpen (chans ++ [c]) ch = true := by
  obtain ⟨c', hc, hcl⟩ := chanOpen_iff.mp h
  exact chanOpen_iff.mpr
    ⟨c', by rw [List.getElem?_append_left (chanOpen_lt h)]; exact hc, hcl⟩

theorem wf_subscribe (now : Nat) {st : EventState} (h : wf st) :
    wf (Subscribe now st).2 := by
  obtain ⟨hopen, hnd⟩ := h
  constructor
  · intro s hs
    simp only [Subscribe, List.mem_append, List.mem_singleton] at hs
    rcases hs with hs' | rfl
    · exact chanOpen_append _ (hopen s hs')
    · exact chanOpen_iff.mpr
        ⟨{ buf := [], closed := false }, getElem?_append_length st.chans _, rfl⟩
  · simp only [Subscribe, List.map_append, List.map_cons, List.map_nil]
    refine List.nodup_append.mpr ⟨hnd, List.nodup_singleton _, ?_⟩
    intro x hx hx'
    obtain ⟨s, hs, rfl⟩ := List.mem_map.mp hx
    have hlt := chanOpen_lt (hopen s hs)
    rw [List.mem_singleton.mp hx'] at hlt
    exact Nat.lt_irrefl _ hlt

theorem wf_unsubscribe {ID : String} {st st' : EventState}
    (h : Unsubscribe ID st = some st') (hwf : wf st) : wf st' := by
  obtain ⟨hopen, hnd⟩ := hwf
  unfold Unsubscribe at h
  cases hl : unsubscribeLoop ID st.Subscribers with
  | none => rw [hl] at h; exact (Option.some_inj.mp h) ▸ ⟨hopen, hnd⟩
  | some p =>
    rw [hl] at h
    obtain ⟨l₁, s₀, l₂, hdec, rfl, hid, -⟩ := unsubscribeLoop_some_spec hl
    dsimp only at h
    cases hc : closeChan s₀.Channel st.chans with
    | none => rw [hc] at h; simp at h
    | some cs =>
      rw [hc] at h
      simp only [Option.map_some'] at h
      rw [← Option.some_inj.mp h]
      have hmid : (st.Subscribers.map Subscriber.Channel).Nodup := hnd
      rw [hdec] at hmid
      simp only [List.map_append, List.map_cons] at hmid
      rw [List.nodup_middle, List.nodup_cons] at hmid
      obtain ⟨hnotmem, hnd'⟩ := hmid
      constructor
      · intro s hs
        have hmem : s ∈ st.Subscribers := by
          rw [hdec]
          rcases List.mem_append.mp hs with h' | h'
          · exact List.mem_append.mpr (Or.inl h')
          · exact List.mem_append.mpr (Or.inr (List.mem_cons_of_mem _ h'))
        have hchne : s.Channel ≠ s₀.Channel := by
          intro e
          apply hnotmem
          rw [← e, ← List.map_append]
          exact List.mem_map_of_mem Subscriber.Channel hs
        dsimp only
        rw [chanOpen_iff]
        obtain ⟨c, hc', hcl⟩ := chanOpen_iff.mp (hopen s hmem)
        exact ⟨c, by rw [closeChan_getElem_other hc hchne]; exact hc', hcl⟩
      · dsimp only
        rw [List.map_append]
        exact hnd'

theorem wf_publish {data : Payload} {st st' : EventState}
    (h : Publish data st = some st') (hwf : wf st) : wf st' := by
  obtain ⟨hopen, hnd⟩ := hwf
  unfold Publish at h
  cases hp : publishLoop data st.Subscribers st.chans with
  | none => rw [hp] at h; simp at h
  | some cs =>
    rw [hp] at h
    simp only [Option.map_some'] at h
    rw [← Option.some_inj.mp h]
    constructor
    · intro s hs
      dsimp only at hs ⊢
      rw [publishLoop_chanOpen hp]
      exact hopen s hs
    · exact hnd

/-- Every reachable registry state is well formed: live subscribers hold
open channels, and no two live subscribers share a channel. -/
theorem reachable_wf {st : EventState} (h : Reachable st) : wf st := by
  induction h with
  | init => exact ⟨by intro s hs; simp [emptyEvent] at hs, by simp [emptyEvent]⟩
  | subscribe now st _ ih => exact wf_subscribe now ih
  | unsubscribe ID st st' _ heq ih => exact wf_unsubscribe heq ih
  | publish data st st' _ heq ih => exact wf_publish heq ih

theorem unsubscribe_mem_subset {ID : String} {st st' : EventState}
    (h : Unsubscribe ID st = some st') :
    ∀ s ∈ st'.Subscribers, s ∈ st.Subscribers := by
  unfold Unsubscribe at h
  cases hl : unsubscribeLoop ID st.Subscribers with
  | none => rw [hl] at h; rw [← Option.some_inj.mp h]; exact fun s hs => hs
  | some p =>
    rw [hl] at h
    obtain ⟨l₁, s₀, l₂, hdec, rfl, -, -⟩ := unsubscribeLoop_some_spec hl
    dsimp only at h
    cases hc : closeChan s₀.Channel st.chans with
    | none => rw [hc] at h; simp at h
    | some cs =>
      rw [hc] at h
      simp only [Option.map_some'] at h
      rw [← Option.some_inj.mp h]
      intro s hs
      rw [hdec]
      rcases List.mem_append.mp hs with h' | h'
      · exact List.mem_append.mpr (Or.inl h')
      · exact List.mem_append.mpr (Or.inr (List.mem_cons_of_mem _ h'))

theorem publish_subscribers_eq {data : Payload} {st st' : EventState}
    (h : Publish data st = some st') : st'.Subscribers = st.Subscribers := by
  unfold Publish at h
  cases hp : publishLoop data st.Subscribers st.chans with
  | none => rw [hp] at h; simp at h
  | some cs =>
    rw [hp] at h
    simp only [Option.map_some'] at h
    rw [← Option.some_inj.mp h]

theorem streamLoop_some_spec {ID : String} {evs : List SessionEvent}
    {ops : List SessionOp} (h : streamLoop ID evs = some ops) :
    ∃ ds : List Payload,
      ops = ds.map SessionOp.writeOp ++ [SessionOp.unsubscribeOp ID] := by
  induction evs generalizing ops with
  | nil => simp [streamLoop] at h
  | cons e rest ih =>
    cases e with
    | cancel =>
      unfold streamLoop at h
      exact ⟨[], by rw [← Option.some_inj.mp h]; simp⟩
    | deliver d w =>
      unfold streamLoop at h
      cases hr : streamLoop ID rest with
      | none => rw [hr] at h; simp at h
      | some ops' =>
        rw [hr] at h
        simp only [Option.map_some'] at h
        obtain ⟨ds, rfl⟩ := ih hr
        exact ⟨d :: ds, by rw [← Option.some_inj.mp h]; simp⟩

/-- C1 (code bug evidence): `Subscribe` derives the id from the wall
clock with one-second resolution, so two calls within the same second
(`time.Now().Unix()` returning 100 both times) return the same id
"100", and the live set then holds two subscribers sharing that id —
the returned identifiers are not pairwise distinct. -/
theorem subscribe_id_collision :
    ((Subscribe 100 (Subscribe 100 emptyEvent).2).1).ID
        = ((Subscribe 100 emptyEvent).1).ID ∧
    stDup.Subscribers.countP (fun s => decide (s.ID = "100")) = 2 := by
  decide

/-- C2: on any well-formed registry state (all reachable states are,
by `reachable_wf`), `Publish m` succeeds and enqueues exactly one copy
of `m` at the tail of the outbox of every subscriber in the live set,
while every channel not owned by a live subscriber — in particular the
outbox of any subscriber unsubscribed before the publish — is left
untouched. -/
theorem publish_fanout_exactly_once (st : EventState) (m : Payload)
    (h : wf st) :
    ∃ st', Publish m st = some st' ∧
      (∀ s ∈ st.Subscribers, ∃ c, st.chans[s.Channel]? = some c ∧
        st'.chans[s.Channel]? = some { c with buf := c.buf ++ [m] }) ∧
      (∀ ch, ch ∉ st.Subscribers.map Subscriber.Channel →
        st'.chans[ch]? = st.chans[ch]?) := by
  obtain ⟨hopen, hnd⟩ := h
  obtain ⟨cs, hp⟩ := publishLoop_of_open m hopen
  refine ⟨{ st with chans := cs }, ?_, ?_, ?_⟩
  · unfold Publish
    rw [hp]
    rfl
  · exact fun s hs => publishLoop_fanout hp hnd s hs
  · exact fun ch hch => publishLoop_frame hp hch

/-- Witness for C2 at the one-subscriber state `oneSub`. -/
theorem publish_fanout_exactly_once_witness :
    ∃ st', Publish [2] oneSub = some st' ∧
      (∀ s ∈ oneSub.Subscribers, ∃ c, oneSub.chans[s.Channel]? = some c ∧
        st'.chans[s.Channel]? = some { c with buf := c.buf ++ [[2]] }) ∧
      (∀ ch, ch ∉ oneSub.Subscribers.map Subscriber.Channel →
        st'.chans[ch]? = oneSub.chans[ch]?) :=
  publish_fanout_exactly_once oneSub [2] (by decide)

/-- C8: `Publish` on a registry with zero registered subscribers
returns without a fault and leaves the state — including every
channel — unchanged. -/
theorem publish_no_subscribers (st : EventState) (m : Payload)
    (h : st.Subscribers = []) : Publish m st = some st := by
  obtain ⟨subs, chans⟩ := st
  dsimp only at h
  subst h
  rfl

/-- Witness for C8 at the startup state. -/
theorem publish_no_subscribers_witness :
    Publish [3] emptyEvent = some emptyEvent :=
  publish_no_subscribers emptyEvent [3] rfl

/-- C9: in every reachable registry state the `Closed` field of every
live subscriber is `false`: `Subscribe` leaves it at the zero value and
no operation ever assigns it, so the field never records that
`Unsubscribe` closed the subscriber's channel. -/
theorem reachable_closed_false {st : EventState} (h : Reachable st) :
    ∀ s ∈ st.Subscribers, s.Closed = false := by
  induction h with
  | init => intro s hs; simp [emptyEvent] at hs
  | subscribe now st _ ih =>
    intro s hs
    simp only [Subscribe, List.mem_append, List.mem_singleton] at hs
    rcases hs with h' | rfl
    · exact ih s h'
    · rfl
  | unsubscribe ID st st' _ heq ih =>
    exact fun s hs => ih s (unsubscribe_mem_subset heq s hs)
  | publish data st st' _ heq ih =>
    exact fun s hs => ih s (publish_subscribers_eq heq ▸ hs)

/-- Witness for C9: the subscriber created by one `Subscribe` from the
startup state has `Closed = false`. -/
theorem reachable_closed_false_witness :
    ((Subscribe 5 emptyEvent).1).Closed = false :=
  reachable_closed_false
    (Reachable.subscribe 5 emptyEvent Reachable.init)
    ((Subscribe 5 emptyEvent).1) (by decide)

/-- C10: a successful `Publish` leaves the subscriber collection
unchanged — same entries, same ids, same order — and also preserves the
channel heap's size and every channel's closed flag; only outbox
contents change. -/
theorem publish_preserves_subscribers (st : EventState) (m : Payload)
    (st' : EventState) (h : Publish m st = some st') :
    st'.Subscribers = st.Subscribers ∧
    st'.chans.length = st.chans.length ∧
    ∀ ch : Nat, (st'.chans[ch]?).map ChanState.closed
        = (st.chans[ch]?).map ChanState.closed := by
  unfold Publish at h
  cases hp : publishLoop m st.Subscribers st.chans with
  | none => rw [hp] at h; simp at h
  | some cs =>
    rw [hp] at h
    simp only [Option.map_some'] at h
    rw [← Option.some_inj.mp h]
    exact ⟨rfl, publishLoop_length hp, publishLoop_closed_map hp⟩

/-- Witness for C10 at the one-subscriber state `oneSub`. -/
theorem publish_preserves_subscribers_witness :
    pubOne.Subscribers = oneSub.Subscribers ∧
    pubOne.chans.length = oneSub.chans.length ∧
    ∀ ch : Nat, (pubOne.chans[ch]?).map ChanState.closed
        = (oneSub.chans[ch]?).map ChanState.closed :=
  publish_preserves_subscribers oneSub [1] pubOne (by decide)

theorem countP_le_one_middle {l₁ l₂ : List Subscriber} {s₀ : Subscriber}
    {ID : String} (hid : s₀.ID = ID)
    (h : (l₁ ++ s₀ :: l₂).countP (fun s => decide (s.ID = ID)) ≤ 1) :
    ∀ s ∈ l₂, s.ID ≠ ID := by
  intro s hs he
  have h2 : 0 < l₂.countP (fun s => decide (s.ID = ID)) :=
    List.countP_pos_iff.mpr ⟨s, hs, by simp [he]⟩
  have h3 : (s₀ :: l₂).countP (fun s => decide (s.ID = ID))
      = l₂.countP (fun s => decide (s.ID = ID)) + 1 :=
    List.countP_cons_of_pos _ _ (by simp [hid])
  rw [List.countP_append, h3] at h
  omega

/-- C3: after two serialized publishes of `m₁` then `m₂` on a
well-formed state, the outbox of every subscriber registered before
both publishes holds `m₁` at a strictly earlier position than `m₂`. -/
theorem publish_preserves_order (st : EventState) (m₁ m₂ : Payload)
    (h : wf st) :
    ∃ st₁ st₂, Publish m₁ st = some st₁ ∧ Publish m₂ st₁ = some st₂ ∧
      ∀ s ∈ st.Subscribers, ∃ (c : ChanState) (i j : Nat),
        st₂.chans[s.Channel]? = some c ∧
        i < j ∧ c.buf[i]? = some m₁ ∧ c.buf[j]? = some m₂ := by
  obtain ⟨hopen, hnd⟩ := h
  obtain ⟨cs₁, hp₁⟩ := publishLoop_of_open m₁ hopen
  have hopen₁ : ∀ s ∈ st.Subscribers, chanOpen cs₁ s.Channel = true :=
    fun s hs => by rw [publishLoop_chanOpen hp₁]; exact hopen s hs
  obtain ⟨cs₂, hp₂⟩ := publishLoop_of_open m₂ hopen₁
  refine ⟨{ st with chans := cs₁ }, { st with chans := cs₂ }, ?_, ?_, ?_⟩
  · unfold Publish
    rw [hp₁]
    rfl
  · unfold Publish
    dsimp only
    rw [hp₂]
    rfl
  · intro s hs
    obtain ⟨c, hc, hc₁⟩ := publishLoop_fanout hp₁ hnd s hs
    obtain ⟨c', hc₁', hc₂⟩ := publishLoop_fanout hp₂ hnd s hs
    rw [hc₁] at hc₁'
    have he : c' = { c with buf := c.buf ++ [m₁] } :=
      (Option.some_inj.mp hc₁').symm
    subst he
    refine ⟨_, c.buf.length, c.buf.length + 1, hc₂, Nat.lt_succ_self _,
      ?_, ?_⟩
    · show ((c.buf ++ [m₁]) ++ [m₂])[c.buf.length]? = some m₁
      rw [List.getElem?_append_left (by simp)]
      exact getElem?_append_length c.buf m₁
    · show ((c.buf ++ [m₁]) ++ [m₂])[c.buf.length + 1]? = some m₂
      rw [show c.buf.length + 1 = (c.buf ++ [m₁]).length by simp]
      exact getElem?_append_length _ m₂

/-- Witness for C3 at the one-subscriber state `oneSub`. -/
theorem publish_preserves_order_witness :
    ∃ st₁ st₂, Publish [1] oneSub = some st₁ ∧ Publish [2] st₁ = some st₂ ∧
      ∀ s ∈ oneSub.Subscribers, ∃ (c : ChanState) (i j : Nat),
        st₂.chans[s.Channel]? = some c ∧
        i < j ∧ c.buf[i]? = some [1] ∧ c.buf[j]? = some [2] :=
  publish_preserves_order oneSub [1] [2] (by decide)

/-- C4 counterexample: in the reachable state `stDup` (two `Subscribe`
calls in the same clock second, both assigned id "100"), `Unsubscribe
"100"` removes only the first matching entry — a live subscriber with id
"100" remains — and a subsequent `Publish` delivers into that remaining
subscriber's outbox (channel 1). -/
theorem unsubscribe_duplicate_id_left_live :
    Unsubscribe "100" stDup =
      some { Subscribers := [{ ID := "100", Closed := false, Channel := 1 }],
             chans := [{ buf := [], closed := true },
                       { buf := [], closed := false }] } ∧
    (Unsubscribe "100" stDup).bind (Publish [7]) =
      some { Subscribers := [{ ID := "100", Closed := false, Channel := 1 }],
             chans := [{ buf := [], closed := true },
                       { buf := [[7]], closed := false }] } := by
  decide

/-- C4 (amended): on a well-formed state in which at most one live
subscriber carries `ID` (ids unique, as the spec demands), `Unsubscribe
ID` succeeds, no live subscriber with `ID` remains, that subscriber's
outbox is closed, and no subsequent successful `Publish` touches it. -/
theorem unsubscribe_removes_unique (st : EventState) (ID : String)
    (s₀ : Subscriber) (hwf : wf st) (hmem : s₀ ∈ st.Subscribers)
    (hid : s₀.ID = ID)
    (huniq : st.Subscribers.countP (fun s => decide (s.ID = ID)) ≤ 1) :
    ∃ st', Unsubscribe ID st = some st' ∧
      (∀ s ∈ st'.Subscribers, s.ID ≠ ID) ∧
      (∃ c, st.chans[s₀.Channel]? = some c ∧
        st'.chans[s₀.Channel]? = some { c with closed := true }) ∧
      (∀ m st'', Publish m st' = some st'' →
        st''.chans[s₀.Channel]? = st'.chans[s₀.Channel]?) := by
  obtain ⟨hopen, hnd⟩ := hwf
  cases hl : unsubscribeLoop ID st.Subscribers with
  | none => exact absurd hid (unsubscribeLoop_eq_none.mp hl s₀ hmem)
  | some p =>
    obtain ⟨l₁, s₀', l₂, hdec, rfl, hid', hl₁⟩ := unsubscribeLoop_some_spec hl
    have hl₂ : ∀ s ∈ l₂, s.ID ≠ ID :=
      countP_le_one_middle hid' (hdec ▸ huniq)
    have hs₀ : s₀ = s₀' := by
      have := hdec ▸ hmem
      rcases List.mem_append.mp this with h' | h'
      · exact absurd hid (hl₁ s₀ h')
      · rcases List.mem_cons.mp h' with rfl | h''
        · rfl
        · exact absurd hid (hl₂ s₀ h'')
    subst hs₀
    obtain ⟨cs, hcs⟩ := closeChan_of_open (hopen s₀ hmem)
    obtain ⟨c, hc, hcl, hclosed⟩ := closeChan_getElem_same hcs
    refine ⟨{ Subscribers := l₁ ++ l₂, chans := cs }, ?_, ?_,
      ⟨c, hc, hclosed⟩, ?_⟩
    · unfold Unsubscribe
      rw [hl]
      dsimp only
      rw [hcs]
      rfl
    · intro s hs
      dsimp only at hs
      rcases List.mem_append.mp hs with h' | h'
      · exact hl₁ s h'
      · exact hl₂ s h'
    · intro m st'' hp
      unfold Publish at hp
      dsimp only at hp
      cases hpl : publishLoop m (l₁ ++ l₂) cs with
      | none => rw [hpl] at hp; simp at hp
      | some cs'' =>
        rw [hpl] at hp
        simp only [Option.map_some'] at hp
        rw [← Option.some_inj.mp hp]
        have hnotin : s₀.Channel ∉ (l₁ ++ l₂).map Subscriber.Channel := by
          have hmid : (st.Subscribers.map Subscriber.Channel).Nodup := hnd
          rw [hdec] at hmid
          simp only [List.map_append, List.map_cons] at hmid
          rw [List.nodup_middle, List.nodup_cons] at hmid
          rw [List.map_append]
          exact hmid.1
        exact publishLoop_frame hpl hnotin

/-- Witness for C4 (amended) at the one-subscriber state `oneSub`. -/
theorem unsubscribe_removes_unique_witness :
    ∃ st', Unsubscribe "5" oneSub = some st' ∧
      (∀ s ∈ st'.Subscribers, s.ID ≠ "5") ∧
      (∃ c, oneSub.chans[(0 : Nat)]? = some c ∧
        st'.chans[(0 : Nat)]? = some { c with closed := true }) ∧
      (∀ m st'', Publish m st' = some st'' →
        st''.chans[(0 : Nat)]? = st'.chans[(0 : Nat)]?) :=
  unsubscribe_removes_unique oneSub "5"
    { ID := "5", Closed := false, Channel := 0 }
    (by decide) (by decide) rfl (by decide)

/-- C6 counterexample: in the reachable state `stDup` two live
subscribers share id "100", so a second `Unsubscribe "100"` removes the
second entry as well — the state after calling it twice differs from
the state after calling it once, refuting idempotence over all states. -/
theorem unsubscribe_double_changes_state :
    (Unsubscribe "100" stDup).bind (Unsubscribe "100")
      ≠ Unsubscribe "100" stDup := by
  decide

/-- C6 (amended): when at most one live subscriber carries `ID` (ids
unique, as the spec demands), `Unsubscribe ID` is idempotent: a second
call finds no matching subscriber, faults nothing, and changes nothing.
The unknown-id case is covered with no further hypothesis: the second
call always runs on a state with no subscriber matching `ID`. -/
theorem unsubscribe_idempotent_unique (st : EventState) (ID : String)
    (huniq : st.Subscribers.countP (fun s => decide (s.ID = ID)) ≤ 1) :
    (Unsubscribe ID st).bind (Unsubscribe ID) = Unsubscribe ID st := by
  cases hl : unsubscribeLoop ID st.Subscribers with
  | none =>
    have h1 : Unsubscribe ID st = some st := by
      unfold Unsubscribe
      rw [hl]
    rw [h1]
    exact h1
  | some p =>
    obtain ⟨l₁, s₀, l₂, hdec, rfl, hid, hl₁⟩ := unsubscribeLoop_some_spec hl
    have hl₂ : ∀ s ∈ l₂, s.ID ≠ ID :=
      countP_le_one_middle hid (hdec ▸ huniq)
    have h1 : Unsubscribe ID st =
        (closeChan s₀.Channel st.chans).map
          (fun cs => { Subscribers := l₁ ++ l₂, chans := cs }) := by
      unfold Unsubscribe
      rw [hl]
    cases hc : closeChan s₀.Channel st.chans with
    | none => rw [h1, hc]; rfl
    | some cs =>
      rw [h1, hc]
      simp only [Option.map_some', Option.some_bind]
      have hnone : unsubscribeLoop ID (l₁ ++ l₂) = none :=
        unsubscribeLoop_eq_none.mpr (fun s hs => by
          rcases List.mem_append.mp hs with h' | h'
          · exact hl₁ s h'
          · exact hl₂ s h')
      unfold Unsubscribe
      dsimp only
      rw [hnone]

/-- Witness for C6 (amended) at the one-subscriber state `oneSub`. -/
theorem unsubscribe_idempotent_unique_witness :
    (Unsubscribe "5" oneSub).bind (Unsubscribe "5")
      = Unsubscribe "5" oneSub :=
  unsubscribe_idempotent_unique oneSub "5" (by decide)

/-- C7: whenever the streaming session of `receiveChatHandler` exits its
loop (the event list reaches a context cancellation; delivered payloads
may come with failing transport writes, which do not abort the loop),
the trace consists of the initial `Subscribe`, the forwarded writes, and
then exactly one `Unsubscribe` carrying the id obtained from the initial
`Subscribe`, as the final operation before the session is closed. -/
theorem handler_unsubscribes_exactly_once (now : Nat) (st : EventState)
    (events : List SessionEvent) (tr : List SessionOp)
    (h : receiveChatHandlerTrace true now st events = some tr) :
    ∃ ds : List Payload,
      tr = SessionOp.subscribeOp ((Subscribe now st).1).ID ::
        (ds.map SessionOp.writeOp ++
          [SessionOp.unsubscribeOp ((Subscribe now st).1).ID]) ∧
      tr.countP isUnsubOp = 1 ∧
      tr.getLast? = some
        (SessionOp.unsubscribeOp ((Subscribe now st).1).ID) := by
  unfold receiveChatHandlerTrace at h
  rw [if_pos rfl] at h
  cases hs : streamLoop ((Subscribe now st).1).ID events with
  | none => rw [hs] at h; simp at h
  | some ops =>
    rw [hs] at h
    simp only [Option.map_some'] at h
    obtain ⟨ds, rfl⟩ := streamLoop_some_spec hs
    refine ⟨ds, (Option.some_inj.mp h).symm, ?_, ?_⟩
    · rw [← Option.some_inj.mp h]
      rw [List.countP_cons_of_neg _ _ (by simp [isUnsubOp])]
      rw [List.countP_append]
      have hz : (ds.map SessionOp.writeOp).countP isUnsubOp = 0 :=
        List.countP_eq_zero.mpr (fun op hop => by
          obtain ⟨d, -, rfl⟩ := List.mem_map.mp hop
          simp [isUnsubOp])
      rw [hz]
      rfl
    · rw [← Option.some_inj.mp h]
      rw [show SessionOp.subscribeOp ((Subscribe now st).1).ID ::
            (ds.map SessionOp.writeOp ++
              [SessionOp.unsubscribeOp ((Subscribe now st).1).ID])
          = (SessionOp.subscribeOp ((Subscribe now st).1).ID ::
              ds.map SessionOp.writeOp) ++
              [SessionOp.unsubscribeOp ((Subscribe now st).1).ID]
        from by simp]
      exact List.getLast?_concat _

/-- Witness for C7: a session from the startup state that forwards one
payload and then observes cancellation. -/
theorem handler_unsubscribes_exactly_once_witness :
    ∃ ds : List Payload,
      ([SessionOp.subscribeOp "3", SessionOp.writeOp [1],
        SessionOp.unsubscribeOp "3"] : List SessionOp)
        = SessionOp.subscribeOp ((Subscribe 3 emptyEvent).1).ID ::
            (ds.map SessionOp.writeOp ++
              [SessionOp.unsubscribeOp ((Subscribe 3 emptyEvent).1).ID]) ∧
      ([SessionOp.subscribeOp "3", SessionOp.writeOp [1],
        SessionOp.unsubscribeOp "3"] : List SessionOp).countP isUnsubOp = 1 ∧
      ([SessionOp.subscribeOp "3", SessionOp.writeOp [1],
        SessionOp.unsubscribeOp "3"] : List SessionOp).getLast? = some
          (SessionOp.unsubscribeOp ((Subscribe 3 emptyEvent).1).ID) :=
  handler_unsubscribes_exactly_once 3 emptyEvent
    [SessionEvent.deliver [1] true, SessionEvent.cancel]
    [SessionOp.subscribeOp "3", SessionOp.writeOp [1],
      SessionOp.unsubscribeOp "3"]
    (by decide)
